import Mathlib

/-
Verification development for the issue-management automation.

The embedding mirrors the TypeScript source:
  - fetchLinkedIssues / fetchIssue  (issue extraction from a pull-request body)
  - fetchProjectInformation / updateIssueStatus / fetchIssuesInProject
    (project schema resolution, cursor pagination, status mutation)
  - run / extractEventInformation   (orchestration entry point)

External collaborators (the GitHub REST and GraphQL endpoints) are modelled
as oracle functions passed in as parameters.  JavaScript-specific behaviour
is modelled explicitly: absent values are Option, a thrown TypeError is the
error branch of Except, string truthiness treats the empty string as false,
and the unbounded while loop over pages is indexed by fuel, where a none
result means the loop has not finished within that many iterations.
-/

/-! ## JavaScript string primitives -/

/-- Prefix test on character lists, mirroring the leftmost step of
JavaScript String.prototype.includes. -/
def isPrefixList : List Char → List Char → Bool
  | [], _ => true
  | _ :: _, [] => false
  | a :: as, b :: bs => a = b && isPrefixList as bs

/-- Substring occurrence test on character lists. -/
def listContains (needle : List Char) : List Char → Bool
  | [] => needle.isEmpty
  | c :: rest => isPrefixList needle (c :: rest) || listContains needle rest

/-- Model of JavaScript s.includes(sub): substring containment. -/
def strIncludes (s sub : String) : Bool :=
  listContains sub.data s.data

/-- Decimal interpretation of a digit list, mirroring parseInt on an
all-digit string. -/
def parseNatChars (l : List Char) : Nat :=
  l.foldl (fun a c => 10 * a + (c.toNat - 48)) 0

/-- Comma splitting, mirroring JavaScript s.split(','); the empty string
yields a single empty piece. -/
def splitCommaAux : List Char → List Char → List String
  | [], acc => [String.mk acc.reverse]
  | c :: rest, acc =>
    if c = ',' then String.mk acc.reverse :: splitCommaAux rest []
    else splitCommaAux rest (c :: acc)

/-- Model of JavaScript s.split(','). -/
def jsSplitComma (s : String) : List String :=
  splitCommaAux s.data []

/-- Model of the JavaScript Number conversion as used on the projectNumber
input: the empty string coerces to 0, an all-digit string to its value,
anything else to NaN (modelled as none). -/
def numberFromInput (s : String) : Option Int :=
  if s.data.isEmpty then some 0
  else if s.data.all Char.isDigit then some (parseNatChars s.data : Nat)
  else none

/-- Model of @actions/core getInput: a missing input reads as the empty
string. -/
def getInputD (v : Option String) : String :=
  v.getD ""

/-- JavaScript truthiness of a possibly absent string: undefined and the
empty string are falsy. -/
def jsTruthy : Option String → Bool
  | none => false
  | some s => !(s = "")

deriving instance DecidableEq for Except

/-! ## Issue records and effect traces -/

/-- The fields of a fetched issue used by the automation. -/
structure IssueRec where
  number : Nat
  assignees : List String
deriving DecidableEq

/-- One field-value update mutation input, as assembled in
updateIssueStatus. -/
structure MutationInput where
  fieldId : String
  itemId : String
  projectId : String
  singleSelectOptionId : String
deriving DecidableEq

/-- Remote calls the automation attempts, in order, each carrying the
credential it is sent with. -/
inductive RemoteCall where
  | issuesGet (auth : String) (issueNumber : Nat)
  | removeAssignees (auth : String) (issueNumber : Nat) (assignees : List String)
  | addAssignees (auth : String) (issueNumber : Nat) (assignees : List String)
  | projectInfoQuery (auth : String) (projectNumber : Option Int)
  | itemsPageQuery (auth : String) (projectNumber : Option Int) (cursor : String)
  | updateFieldMutation (auth : String) (input : MutationInput)
deriving DecidableEq

/-- Log lines written by the automation; each constructor stands for one
core.info or core.error template of the source, carrying the interpolated
values. -/
inductive LogLine where
  | pullRequestBody (body : Option String)
  | foundIssueNumbers (count : Nat)
  | noLinkedIssues
  | issueNumberToken (tok : String)
  | fetchingIssue (n : Nat)
  | errorMessage (msg : String)
  | foundValidIssue (n : Nat)
  | noValidIssue (n : Nat)
  | updatingStatus (n : Nat) (statusLabel : String)
  | foundFieldId (id : Option String)
  | foundOptionId (id : Option String) (statusLabel : String)
  | foundProjectIssueId (id : Option String) (n : Nat)
  | settingField (fieldId itemId optionId : String)
  | successUpdate
  | errorFindingInfo
deriving DecidableEq

/-! ## Token extraction: the regex match for hash-number tokens

The source matches the pull-request body against the global pattern of a
hash sign followed by one or more digits.  The scanner below walks the
text once; the state carries the reversed digit run of a token currently
being read (none when not inside a candidate token). -/

/-- One-pass scanner equivalent to the global regex match: the state holds
the reversed digits read since the last hash sign, or none. -/
def scanAux : List Char → Option (List Char) → List (List Char)
  | [], none => []
  | [], some ds => if ds.isEmpty then [] else [('#' :: ds.reverse)]
  | c :: rest, none =>
    if c = '#' then scanAux rest (some []) else scanAux rest none
  | c :: rest, some ds =>
    if c.isDigit then scanAux rest (some (c :: ds))
    else
      (if ds.isEmpty then [] else [('#' :: ds.reverse)]) ++
        (if c = '#' then scanAux rest (some []) else scanAux rest none)

/-- All tokens of the body matching a hash sign followed by one or more
digits, in order of appearance. -/
def extractTokens (l : List Char) : List (List Char) :=
  scanAux l none

/-- The issue numbers looked up for a token list: each token is stripped
to its digits and parsed; tokens stripping to nothing are skipped. -/
def tokenNumbers : List (List Char) → List Nat
  | [] => []
  | t :: r =>
    let parsed := t.filter Char.isDigit
    if parsed.isEmpty then tokenNumbers r
    else parseNatChars parsed :: tokenNumbers r

/-- The issue numbers referenced by a possibly absent body text. -/
def linkedNumbers (body : Option String) : List Nat :=
  match body with
  | none => []
  | some text => tokenNumbers (extractTokens text.data)

/-! ## fetchIssue and fetchLinkedIssues -/

/-- Embedding of fetchIssue: one issues.get call; a store failure is the
thrown error, caught and logged, degrading to an absent result. -/
def fetchIssue (auth : String) (store : Nat → Except String IssueRec)
    (n : Nat) : List LogLine × List RemoteCall × Option IssueRec :=
  match store n with
  | .ok i => ([.fetchingIssue n, .foundValidIssue n], [.issuesGet auth n], some i)
  | .error msg =>
    ([.fetchingIssue n, .errorMessage msg, .noValidIssue n], [.issuesGet auth n], none)

/-- The token loop of fetchLinkedIssues: for each token, strip the digits
and, when nonempty, fetch the issue, keeping the successfully fetched
issues in order. -/
def processTokens (auth : String) (store : Nat → Except String IssueRec) :
    List (List Char) → List LogLine × List RemoteCall × List IssueRec
  | [] => ([], [], [])
  | tok :: rest =>
    let parsed := tok.filter Char.isDigit
    if parsed.isEmpty then
      let r := processTokens auth store rest
      (.issueNumberToken (String.mk tok) :: r.1, r.2)
    else
      let f := fetchIssue auth store (parseNatChars parsed)
      let r := processTokens auth store rest
      (.issueNumberToken (String.mk tok) :: f.1 ++ r.1,
       f.2.1 ++ r.2.1,
       (match f.2.2 with | some i => [i] | none => []) ++ r.2.2)

/-- Embedding of fetchLinkedIssues: extract the hash-number tokens of the
body, then fetch each referenced issue, skipping failures. -/
def fetchLinkedIssues (auth : String) (store : Nat → Except String IssueRec)
    (body : Option String) : List LogLine × List RemoteCall × List IssueRec :=
  match body with
  | none => ([.pullRequestBody none, .noLinkedIssues], [], [])
  | some text =>
    let toks := extractTokens text.data
    if toks.isEmpty then ([.pullRequestBody (some text), .noLinkedIssues], [], [])
    else
      let r := processTokens auth store toks
      (.pullRequestBody (some text) :: .foundIssueNumbers toks.length :: r.1, r.2)

/-! ## Project schema, items and pagination -/

/-- A single-select option of a project field. -/
structure OptionEntry where
  id : String
  name : String
deriving DecidableEq

/-- A project field as it appears in the GraphQL response: the inline
fragments leave id and name absent on unmatched variants, and only the
single-select variant carries an option list. -/
structure FieldNode where
  id : Option String
  name : Option String
  options : Option (List OptionEntry)
deriving DecidableEq

/-- The project information returned by fetchProjectInformation: its node
id and its possibly absent field-node list, whose entries may themselves
be null. -/
structure Project where
  id : String
  fieldNodes : Option (List (Option FieldNode))
deriving DecidableEq

/-- The content object of a project item as the items query shapes it:
only the Issue fragment contributes a number, so non-issue content is an
object with the number absent. -/
structure Content where
  number : Option Nat
deriving DecidableEq

/-- A project item: its id and its possibly null content object. -/
structure Item where
  id : String
  content : Option Content
deriving DecidableEq

/-- One page of the items query: the item nodes, and the page info flags
driving the pagination loop. -/
structure Page where
  nodes : List (Option Item)
  hasNextPage : Bool
  endCursor : String
deriving DecidableEq

/-- The predicate of the status-field lookup in updateIssueStatus: the
node is non-null and its name is exactly the string Status. -/
def fieldIsStatus (x : Option FieldNode) : Bool :=
  match x with
  | some f => f.name = some "Status"
  | none => false

/-- Embedding of the status-field lookup: find the first field node whose
name is exactly Status, flattening the null layers of the response. -/
def findStatusField (project : Option Project) : Option FieldNode :=
  match project with
  | none => none
  | some p =>
    match p.fieldNodes with
    | none => none
    | some ns => (ns.find? fieldIsStatus).bind (fun x => x)

/-- The thrown-error message of reading find on an absent options list. -/
def optionsTypeError : String :=
  "TypeError: Cannot read properties of undefined (reading find)"

/-- The thrown-error message of reading number on a null item. -/
def itemTypeError : String :=
  "TypeError: Cannot read properties of undefined (reading number)"

/-- The thrown-error message of reading number on a null content object. -/
def contentTypeError : String :=
  "TypeError: Cannot read properties of null (reading number)"

/-- Embedding of the option lookup: on an absent status field the chain
yields absent; on a field without an options list the member access
throws; otherwise the first option whose name contains the target label
is selected. -/
def resolveStatusOptionId (statusField : Option FieldNode) (statusLabel : String) :
    Except String (Option String) :=
  match statusField with
  | none => .ok none
  | some f =>
    match f.options with
    | none => .error optionsTypeError
    | some opts => .ok ((opts.find? (fun o => strIncludes o.name statusLabel)).map (fun o => o.id))

/-- Embedding of the item lookup by issue number: scanning the item list,
a null item or a null content object makes the member access throw;
otherwise the first item whose content number equals the target is
returned, absent when none matches. -/
def findProjectIssueId : List (Option Item) → Nat → Except String (Option String)
  | [], _ => .ok none
  | none :: _, _ => .error itemTypeError
  | some it :: rest, n =>
    match it.content with
    | none => .error contentTypeError
    | some c => if c.number = some n then .ok (some it.id) else findProjectIssueId rest n

/-- The lookup the specification describes, for comparison: return the id
of the first item whose linked issue number equals the target, skipping
items without one, absent when none matches. -/
def firstMatchingItemId : List (Option Item) → Nat → Option String
  | [], _ => none
  | none :: rest, n => firstMatchingItemId rest n
  | some it :: rest, n =>
    if it.content.bind Content.number = some n then some it.id
    else firstMatchingItemId rest n

/-- Embedding of the while loop of fetchIssuesInProject, indexed by fuel:
each iteration queries the store at the current cursor, appends the page
nodes, and continues at the page's end cursor while it reports a next
page.  The queried cursors are recorded; a none result means the loop has
not finished within the given number of iterations. -/
def fetchLoop (store : String → Page) :
    Nat → String → List String × List (Option Item) →
    Option (List String × List (Option Item))
  | 0, _, _ => none
  | n + 1, cursor, qa =>
    let page := store cursor
    let qa2 := (qa.1 ++ [cursor], qa.2 ++ page.nodes)
    if page.hasNextPage then fetchLoop store n page.endCursor qa2 else some qa2

/-- Embedding of fetchIssuesInProject: run the pagination loop from the
empty initial cursor with no accumulated items. -/
def fetchIssuesInProject (store : String → Page) (fuel : Nat) :
    Option (List String × List (Option Item)) :=
  fetchLoop store fuel "" ([], [])

/-- The cursor sequence a well-behaved pagination pass requests: the
initial cursor, then each page's end cursor handed to the next request. -/
def cursorsOf : String → List Page → List String
  | _, [] => []
  | c, p :: ps => c :: cursorsOf p.endCursor ps

/-- A finite page chain served by the store: starting at a cursor, each
page is the store's response there, every page but the last reports a
next page, and the last reports none. -/
inductive Chain (store : String → Page) : String → List Page → Prop where
  | last {c : String} {p : Page} :
      store c = p → p.hasNextPage = false → Chain store c [p]
  | step {c : String} {p : Page} {ps : List Page} :
      store c = p → p.hasNextPage = true → Chain store p.endCursor ps →
      Chain store c (p :: ps)

/-- Embedding of updateIssueStatus, staged as the source is: resolve the
project id, the status field and its option (a plain status field throws
here, before any items are fetched), then paginate the items, look the
issue up, and either apply the single mutation when all four identities
are truthy or log the error diagnostic and skip. -/
def updateIssueStatus (auth : String) (n : Nat) (statusLabel : String)
    (project : Option Project) (projectNumber : Option Int)
    (store : String → Page) (fuel : Nat) :
    Option (Except String (List LogLine × List RemoteCall)) :=
  let projectId := project.map Project.id
  let statusField := findStatusField project
  let statusFieldId := statusField.bind FieldNode.id
  match resolveStatusOptionId statusField statusLabel with
  | .error e => some (.error e)
  | .ok statusOptionId =>
    match fetchIssuesInProject store fuel with
    | none => none
    | some qi =>
      match findProjectIssueId qi.2 n with
      | .error e => some (.error e)
      | .ok projectIssueId =>
        let log := [LogLine.updatingStatus n statusLabel,
                    LogLine.foundFieldId statusFieldId,
                    LogLine.foundOptionId statusOptionId statusLabel,
                    LogLine.foundProjectIssueId projectIssueId n]
        let preCalls := RemoteCall.projectInfoQuery auth projectNumber ::
                        qi.1.map (RemoteCall.itemsPageQuery auth projectNumber)
        if jsTruthy statusFieldId && jsTruthy statusOptionId &&
           jsTruthy projectId && jsTruthy projectIssueId then
          let input : MutationInput :=
            { fieldId := statusFieldId.getD "",
              itemId := projectIssueId.getD "",
              projectId := projectId.getD "",
              singleSelectOptionId := statusOptionId.getD "" }
          some (.ok (log ++ [LogLine.settingField input.fieldId input.itemId
                               input.singleSelectOptionId,
                             LogLine.successUpdate],
                     preCalls ++ [RemoteCall.updateFieldMutation auth input]))
        else
          some (.ok (log ++ [LogLine.errorFindingInfo], preCalls))

/-! ## Orchestration: the action entry point -/

/-- The status enumeration of the source. -/
inductive Status where
  | review
  | inProgress
  | test
deriving DecidableEq

/-- The string value of each status enumeration member. -/
def Status.label : Status → String
  | .review => "Review"
  | .inProgress => "In Progress"
  | .test => "Test"

/-- The action's configuration inputs; none models an input the workflow
did not provide. -/
structure Config where
  token : Option String
  projectNumber : Option String
  testers : Option String

/-- The trigger payload shapes the entry point distinguishes. -/
inductive Event where
  | pullRequestReviewRequested (body : Option String) (reviewers : List String)
  | pullRequestReviewSubmitted (state : String) (body : Option String)
      (authorLogin : String)
  | otherEvent

/-- The value extractEventInformation assembles: who to assign, the linked
issues, and the status to set (absent on the fall-through branch, where
the source leaves the variable unset). -/
structure EventInfo where
  toBeAssigned : List String
  linkedIssues : List IssueRec
  statusToBeSet : Option Status

/-- Embedding of extractEventInformation: dispatch on the trigger shape,
fetch the linked issues, and pick assignees and target status; a
submitted review without requested changes yields no event info. -/
def extractEventInformation (auth : String)
    (issueStore : Nat → Except String IssueRec) (testers : List String) :
    Event → List LogLine × List RemoteCall × Option EventInfo
  | .pullRequestReviewRequested body reviewers =>
    let r := fetchLinkedIssues auth issueStore body
    let requestedTesters := testers.filter (fun t => reviewers.contains t)
    let st := if requestedTesters.length > 0 then Status.test else Status.review
    (r.1, r.2.1, some ⟨reviewers, r.2.2, some st⟩)
  | .pullRequestReviewSubmitted state body author =>
    if state = "changes_requested" then
      let r := fetchLinkedIssues auth issueStore body
      (r.1, r.2.1, some ⟨[author], r.2.2, some Status.inProgress⟩)
    else ([], [], none)
  | .otherEvent => ([], [], some ⟨[], [], none⟩)

/-- Embedding of updateAssignees: remove the issue's current assignees,
then add the target assignees. -/
def updateAssigneesCalls (auth : String) (issue : IssueRec)
    (assignees : List String) : List RemoteCall :=
  [.removeAssignees auth issue.number issue.assignees,
   .addAssignees auth issue.number assignees]

/-- The per-issue loop of run: for each linked issue, update its assignees
and then its project status, accumulating the attempted remote calls; an
uncaught throw ends the run as a failure, and a none means the pagination
inside never finished. -/
def runIssuesLoop (auth : String) (statusLabel : String)
    (project : Option Project) (projectNumber : Option Int)
    (itemStore : String → Page) (fuel : Nat) (toAssign : List String) :
    List IssueRec → Option (Except String (List RemoteCall))
  | [] => some (.ok [])
  | i :: rest =>
    let aCalls := updateAssigneesCalls auth i toAssign
    match updateIssueStatus auth i.number statusLabel project projectNumber
        itemStore fuel with
    | none => none
    | some (.error e) => some (.error e)
    | some (.ok lu) =>
      match runIssuesLoop auth statusLabel project projectNumber itemStore fuel
          toAssign rest with
      | none => none
      | some (.error e) => some (.error e)
      | some (.ok cs) => some (.ok (aCalls ++ lu.2 ++ cs))

/-- Embedding of run: read the inputs (missing ones read as the empty
string), split the testers list, extract the event information, and
process each linked issue; the result is the ordered trace of attempted
remote calls, or the uncaught failure. -/
def run (cfg : Config) (evt : Event)
    (issueStore : Nat → Except String IssueRec) (project : Option Project)
    (itemStore : String → Page) (fuel : Nat) :
    Option (Except String (List RemoteCall)) :=
  let auth := getInputD cfg.token
  let testers := jsSplitComma (getInputD cfg.testers)
  let ex := extractEventInformation auth issueStore testers evt
  match ex.2.2 with
  | none => some (.ok ex.2.1)
  | some info =>
    let statusLabel := (info.statusToBeSet.map Status.label).getD "undefined"
    let pn := numberFromInput (getInputD cfg.projectNumber)
    match runIssuesLoop auth statusLabel project pn itemStore fuel
        info.toBeAssigned info.linkedIssues with
    | none => none
    | some (.error e) => some (.error e)
    | some (.ok cs) => some (.ok (ex.2.1 ++ cs))

/-! ## Concrete stores and fixtures used by witnesses and counterexamples -/

/-- A store serving a single empty page with no next page. -/
def emptyPageStore : String → Page :=
  fun _ => { nodes := [], hasNextPage := false, endCursor := "" }

/-- A misbehaving store that reports a next page on every response. -/
def badStore : String → Page :=
  fun _ => { nodes := [], hasNextPage := true, endCursor := "x" }

/-- A page of a given size for the pagination fixture. -/
def pageOf (k : Nat) (hnp : Bool) (ec : String) : Page :=
  { nodes := List.replicate k (some { id := "it", content := none }),
    hasNextPage := hnp, endCursor := ec }

/-- First fixture page: one hundred items, a next page at cursor c1. -/
def page1 : Page := pageOf 100 true "c1"

/-- Second fixture page: one hundred items, a next page at cursor c2. -/
def page2 : Page := pageOf 100 true "c2"

/-- Third fixture page: thirty-seven items, no next page. -/
def page3 : Page := pageOf 37 false ""

/-- The three fixture pages in order. -/
def pages3 : List Page := [page1, page2, page3]

/-- The store serving the three fixture pages at their cursors. -/
def store3 : String → Page :=
  fun c => if c = "c1" then page2 else if c = "c2" then page3 else page1

/-- Issue store where numbers 1 and 2 resolve and everything else throws. -/
def store6 : Nat → Except String IssueRec :=
  fun n =>
    if n = 1 then .ok { number := 1, assignees := [] }
    else if n = 2 then .ok { number := 2, assignees := [] }
    else .error "boom"

/-- Issue store where every number resolves to an issue of that number. -/
def store7 : Nat → Except String IssueRec :=
  fun n => .ok { number := n, assignees := [] }

/-- The option list of the specification's resolution example. -/
def opts4 : List OptionEntry :=
  [⟨"o1", "Backlog"⟩, ⟨"o2", "In Progress"⟩, ⟨"o3", "In Review"⟩, ⟨"o4", "Done"⟩]

/-- A single-select field whose name contains Status without being it. -/
def fldContains : FieldNode :=
  { id := some "f1", name := some "Status Field", options := some opts4 }

/-- A single-select field named exactly Status. -/
def fldStatus : FieldNode :=
  { id := some "f2", name := some "Status", options := some opts4 }

/-- A plain field named exactly Status, carrying no option list. -/
def fldPlainStatus : FieldNode :=
  { id := some "f", name := some "Status", options := none }

/-- An item list mixing a contentless (non-issue) item with two issue
items of the same number. -/
def mixedItems : List (Option Item) :=
  [some { id := "a", content := some { number := none } },
   some { id := "b", content := some { number := some 5 } },
   some { id := "c", content := some { number := some 5 } }]

/-! ## Helper lemmas -/

/-- Running the pagination loop along a finite chain of pages consumes one
fuel per page, requests exactly the chained cursors, and accumulates the
page nodes in order. -/
theorem fetchLoop_chain (store : String → Page) :
    ∀ (ps : List Page) (c : String), Chain store c ps →
    ∀ (qs : List String) (acc : List (Option Item)),
      fetchLoop store ps.length c (qs, acc) =
        some (qs ++ cursorsOf c ps, acc ++ (ps.map Page.nodes).flatten) := by
  intro ps c h
  induction h with
  | last hst hnp =>
    intro qs acc
    simp [fetchLoop, hst, hnp, cursorsOf]
  | step hst hnp hch ih =>
    intro qs acc
    simp only [List.length_cons, fetchLoop, hst, hnp, if_pos]
    rw [ih]
    simp [cursorsOf]
  
/-- The misbehaving store exhausts any amount of fuel. -/
theorem fetchLoop_badStore :
    ∀ (fuel : Nat) (c : String) (qa : List String × List (Option Item)),
      fetchLoop badStore fuel c qa = none := by
  intro fuel
  induction fuel with
  | zero => intro c qa; rfl
  | succ n ih => intro c qa; simp [fetchLoop, badStore, ih]

/-- The three fixture pages form a chain from the empty initial cursor. -/
theorem chain3 : Chain store3 "" pages3 := by
  refine Chain.step rfl rfl (Chain.step rfl rfl (Chain.last rfl rfl))

/-! ## Claim theorems -/

/-- C1: for every finite sequence of item pages served by the project
store, the item-list fetch requests each next page at the previous
response's end cursor while hasNextPage is true, and returns the
concatenation of all pages' item nodes in page order. -/
theorem fetchIssuesInProject_concat_pages (store : String → Page)
    (ps : List Page) (h : Chain store "" ps) :
    fetchIssuesInProject store ps.length =
      some (cursorsOf "" ps, (ps.map Page.nodes).flatten) := by
  simpa [fetchIssuesInProject] using fetchLoop_chain store ps "" h [] []

set_option maxRecDepth 10000 in
/-- C1 witness: three pages of one hundred, one hundred and thirty-seven
items with hasNextPage true, true, false yield the requested cursor
sequence and exactly two hundred and thirty-seven accumulated items. -/
theorem fetchIssuesInProject_concat_pages_witness :
    fetchIssuesInProject store3 3 =
      some (cursorsOf "" pages3, (pages3.map Page.nodes).flatten) ∧
    ((pages3.map Page.nodes).flatten).length = 237 ∧
    cursorsOf "" pages3 = ["", "c1", "c2"] :=
  ⟨fetchIssuesInProject_concat_pages store3 pages3 chain3, by decide, by decide⟩

/-- C8 counterexample: the pagination loop imposes no maximum iteration
count; with a store that always reports a next page, no number of
iterations completes the fetch. -/
theorem fetchIssuesInProject_no_bound_cex :
    ¬ ∃ fuel, (fetchIssuesInProject badStore fuel).isSome = true := by
  rintro ⟨fuel, h⟩
  rw [fetchIssuesInProject, fetchLoop_badStore] at h
  simp at h

/-- C8 amended: the pagination loop has no defensive iteration bound: a
misbehaving upstream that always reports a next page makes the loop run
forever, silently and without a diagnostic, while an upstream serving a
finite page chain is drained completely, one iteration per page. -/
theorem fetchIssuesInProject_no_bound_amended :
    (∀ fuel, fetchIssuesInProject badStore fuel = none) ∧
    (∀ (store : String → Page) (ps : List Page), Chain store "" ps →
      fetchIssuesInProject store ps.length =
        some (cursorsOf "" ps, (ps.map Page.nodes).flatten)) :=
  ⟨fun fuel => by simp [fetchIssuesInProject, fetchLoop_badStore],
   fun store ps h => by
     simpa [fetchIssuesInProject] using fetchLoop_chain store ps "" h [] []⟩

/-- C8 witness: the misbehaving store exhausts seven iterations without
finishing, while the three-page fixture chain completes in three. -/
theorem fetchIssuesInProject_no_bound_witness :
    fetchIssuesInProject badStore 7 = none ∧
    fetchIssuesInProject store3 3 =
      some (cursorsOf "" pages3, (pages3.map Page.nodes).flatten) :=
  ⟨fetchIssuesInProject_no_bound_amended.1 7,
   fetchIssuesInProject_no_bound_amended.2 store3 pages3 chain3⟩

/-- C2 counterexample: a field whose name contains Status without being
exactly Status is not resolved as the status field — the lookup yields
absent on a project whose only field is named Status Field. -/
theorem findStatusField_contains_cex :
    strIncludes "Status Field" "Status" = true ∧
    fldContains.name = some "Status Field" ∧
    findStatusField (some { id := "p1", fieldNodes := some [some fldContains] }) =
      none := by decide

/-- C2 amended: the status field is resolved by exact name equality to
Status: when no field node's name is exactly Status the lookup yields
absent, even if some field's name contains Status as a proper substring,
and otherwise the first field node named exactly Status is returned. -/
theorem findStatusField_exact_equality :
    (∀ (pid : String) (ns : List (Option FieldNode)),
      (∀ x ∈ ns, fieldIsStatus x = false) →
      findStatusField (some { id := pid, fieldNodes := some ns }) = none) ∧
    (∀ (pid : String) (pre : List (Option FieldNode)) (f : FieldNode)
        (post : List (Option FieldNode)),
      (∀ x ∈ pre, fieldIsStatus x = false) → f.name = some "Status" →
      findStatusField (some { id := pid, fieldNodes := some (pre ++ some f :: post) }) =
        some f) := by
  constructor
  · intro pid ns h
    simp only [findStatusField]
    rw [List.find?_eq_none.mpr]
    · rfl
    · intro x hx
      simp [h x hx]
  · intro pid pre f post hpre hf
    simp only [findStatusField]
    have : (pre ++ some f :: post).find? fieldIsStatus = some (some f) := by
      induction pre with
      | nil => simp [List.find?, fieldIsStatus, hf]
      | cons a as ih =>
        have ha := hpre a (by simp)
        simp only [List.cons_append, List.find?_cons, ha]
        exact ih fun x hx => hpre x (by simp [hx])
    simp [this]

/-- C2 witness: the exact-equality resolution at work — the contains-only
field alone resolves to absent, and next to a field named exactly Status
that exact field wins. -/
theorem findStatusField_exact_equality_witness :
    findStatusField (some { id := "p1", fieldNodes := some [some fldContains] }) =
      none ∧
    findStatusField
        (some { id := "p1", fieldNodes := some [some fldContains, some fldStatus] }) =
      some fldStatus :=
  ⟨findStatusField_exact_equality.1 "p1" [some fldContains] (by decide),
   findStatusField_exact_equality.2 "p1" [some fldContains] fldStatus []
     (by decide) (by decide)⟩

/-- C3: option resolution selects the first option in list order whose
name contains the target label as a substring. -/
theorem resolveStatusOptionId_first_substring (fid fname : Option String)
    (pre post : List OptionEntry) (o : OptionEntry) (label : String)
    (hpre : ∀ x ∈ pre, strIncludes x.name label = false)
    (ho : strIncludes o.name label = true) :
    resolveStatusOptionId
        (some { id := fid, name := fname, options := some (pre ++ o :: post) })
        label =
      .ok (some o.id) := by
  simp only [resolveStatusOptionId]
  have : (pre ++ o :: post).find? (fun x => strIncludes x.name label) = some o := by
    induction pre with
    | nil => simp [List.find?, ho]
    | cons a as ih =>
      have ha := hpre a (by simp)
      simp only [List.cons_append, List.find?_cons, ha]
      exact ih fun x hx => hpre x (by simp [hx])
  simp [this]

/-- C3 witness: with options Backlog, In Progress, In Review, Done and
target label Review, the option In Review is selected by substring match,
although it is not an exact match. -/
theorem resolveStatusOptionId_first_substring_witness :
    resolveStatusOptionId
        (some { id := some "f1", name := some "Status", options := some opts4 })
        "Review" =
      .ok (some "o3") ∧
    ("In Review" : String) ≠ "Review" :=
  ⟨resolveStatusOptionId_first_substring (some "f1") (some "Status")
      [⟨"o1", "Backlog"⟩, ⟨"o2", "In Progress"⟩] [⟨"o4", "Done"⟩]
      ⟨"o3", "In Review"⟩ "Review" (by decide) (by decide),
   by decide⟩

/-- When the option lookup and the item lookup both complete without a
throw and any of the four identities is absent, updateIssueStatus logs the
resolved values and the error diagnostic and attempts no mutation. -/
theorem updateIssueStatusSkipAux (auth : String) (n : Nat) (label : String)
    (pn : Option Int) (store : String → Page) (fuel : Nat)
    (project : Option Project) (qs : List String) (issues : List (Option Item))
    (oid iid : Option String)
    (hopt : resolveStatusOptionId (findStatusField project) label = .ok oid)
    (hfetch : fetchIssuesInProject store fuel = some (qs, issues))
    (hitem : findProjectIssueId issues n = .ok iid)
    (habs : (findStatusField project).bind FieldNode.id = none ∨ oid = none ∨
            project.map Project.id = none ∨ iid = none) :
    updateIssueStatus auth n label project pn store fuel =
      some (.ok ([.updatingStatus n label,
                  .foundFieldId ((findStatusField project).bind FieldNode.id),
                  .foundOptionId oid label, .foundProjectIssueId iid n,
                  .errorFindingInfo],
                 .projectInfoQuery auth pn ::
                   qs.map (RemoteCall.itemsPageQuery auth pn))) := by
  have hguard : (jsTruthy ((findStatusField project).bind FieldNode.id) &&
      jsTruthy oid && jsTruthy (project.map Project.id) && jsTruthy iid) = false := by
    rcases habs with h | h | h | h <;> simp [h, jsTruthy]
  simp [updateIssueStatus, hopt, hfetch, hitem, hguard]

/-- C4: whenever any one of the four correlated identities — status field
id, status option id, project id, project item id — resolves to absent,
the update mutation is not attempted at all, the log records the resolved
value of each looked-up piece (identifying the absent one) together with
the error diagnostic, and the call returns normally rather than failing. -/
theorem updateIssueStatus_skips_when_absent (auth : String) (n : Nat)
    (label : String) (pn : Option Int) (store : String → Page) (fuel : Nat)
    (project : Option Project) (qs : List String) (issues : List (Option Item))
    (oid iid : Option String)
    (hopt : resolveStatusOptionId (findStatusField project) label = .ok oid)
    (hfetch : fetchIssuesInProject store fuel = some (qs, issues))
    (hitem : findProjectIssueId issues n = .ok iid)
    (habs : (findStatusField project).bind FieldNode.id = none ∨ oid = none ∨
            project.map Project.id = none ∨ iid = none) :
    updateIssueStatus auth n label project pn store fuel =
      some (.ok ([.updatingStatus n label,
                  .foundFieldId ((findStatusField project).bind FieldNode.id),
                  .foundOptionId oid label, .foundProjectIssueId iid n,
                  .errorFindingInfo],
                 .projectInfoQuery auth pn ::
                   qs.map (RemoteCall.itemsPageQuery auth pn))) :=
  updateIssueStatusSkipAux auth n label pn store fuel project qs issues oid iid
    hopt hfetch hitem habs

/-- C4 witness: with an absent project every identity is absent; the call
returns the error diagnostic, attempts only the two queries and no
mutation. -/
theorem updateIssueStatus_skips_when_absent_witness :
    updateIssueStatus "t" 5 "Review" none (some 0) emptyPageStore 1 =
      some (.ok ([.updatingStatus 5 "Review", .foundFieldId none,
                  .foundOptionId none "Review", .foundProjectIssueId none 5,
                  .errorFindingInfo],
                 [.projectInfoQuery "t" (some 0),
                  .itemsPageQuery "t" (some 0) ""])) :=
  updateIssueStatus_skips_when_absent "t" 5 "Review" (some 0) emptyPageStore 1
    none [""] [] none none rfl (by decide) rfl (Or.inl rfl)

/-- C9 counterexample: a plain field named exactly Status, carrying no
option list, makes updateIssueStatus throw an unguarded TypeError while
reading find on the absent options — the run crashes instead of treating
the schema as absent. -/
theorem updateIssueStatus_plain_status_cex :
    updateIssueStatus "t" 5 "Review"
        (some { id := "p", fieldNodes := some [some fldPlainStatus] }) (some 1)
        emptyPageStore 1 =
      some (.error optionsTypeError) := by decide

/-- C9 amended: when no field is named exactly Status (or the project is
absent), resolution yields an absent schema and the mutation is skipped
with the error diagnostic, without crashing; but when the field named
Status is a plain field without an option list, the option lookup throws
an unguarded TypeError and the run fails for that issue. -/
theorem updateIssueStatus_schema_amended :
    (∀ (auth : String) (n : Nat) (label : String) (pn : Option Int)
        (store : String → Page) (fuel : Nat) (project : Option Project)
        (qs : List String) (issues : List (Option Item)) (iid : Option String),
      findStatusField project = none →
      fetchIssuesInProject store fuel = some (qs, issues) →
      findProjectIssueId issues n = .ok iid →
      updateIssueStatus auth n label project pn store fuel =
        some (.ok ([.updatingStatus n label, .foundFieldId none,
                    .foundOptionId none label, .foundProjectIssueId iid n,
                    .errorFindingInfo],
                   .projectInfoQuery auth pn ::
                     qs.map (RemoteCall.itemsPageQuery auth pn)))) ∧
    (∀ (auth : String) (n : Nat) (label : String) (pn : Option Int)
        (store : String → Page) (fuel : Nat) (project : Option Project)
        (f : FieldNode),
      findStatusField project = some f → f.options = none →
      updateIssueStatus auth n label project pn store fuel =
        some (.error optionsTypeError)) := by
  constructor
  · intro auth n label pn store fuel project qs issues iid hfind hfetch hitem
    have hopt : resolveStatusOptionId (findStatusField project) label = .ok none := by
      rw [hfind]; rfl
    simpa [hfind] using
      updateIssueStatusSkipAux auth n label pn store fuel project qs issues none
        iid hopt hfetch hitem (Or.inl (by rw [hfind]; rfl))
  · intro auth n label pn store fuel project f hfind hopts
    simp [updateIssueStatus, hfind, resolveStatusOptionId, hopts]

/-- C9 witness: a project with no Status field skips the mutation with the
diagnostic, and the plain Status field crashes the lookup. -/
theorem updateIssueStatus_schema_amended_witness :
    updateIssueStatus "t" 9 "Test"
        (some { id := "p", fieldNodes := some [some fldContains] }) (some 2)
        emptyPageStore 1 =
      some (.ok ([.updatingStatus 9 "Test", .foundFieldId none,
                  .foundOptionId none "Test", .foundProjectIssueId none 9,
                  .errorFindingInfo],
                 [.projectInfoQuery "t" (some 2),
                  .itemsPageQuery "t" (some 2) ""])) ∧
    updateIssueStatus "t" 9 "Test"
        (some { id := "p", fieldNodes := some [some fldPlainStatus] }) (some 2)
        emptyPageStore 1 =
      some (.error optionsTypeError) :=
  ⟨updateIssueStatus_schema_amended.1 "t" 9 "Test" (some 2) emptyPageStore 1
      (some { id := "p", fieldNodes := some [some fldContains] }) [""] [] none
      (by decide) (by decide) rfl,
   updateIssueStatus_schema_amended.2 "t" 9 "Test" (some 2) emptyPageStore 1
      (some { id := "p", fieldNodes := some [some fldPlainStatus] })
      fldPlainStatus (by decide) rfl⟩

/-- C5 counterexample: the lookup does not skip every non-issue item
without error — an item whose content is null, or a null item node, makes
the member access throw a TypeError instead of being skipped. -/
theorem findProjectIssueId_null_throws_cex :
    findProjectIssueId [some { id := "itm1", content := none }] 5 =
      .error contentTypeError ∧
    findProjectIssueId [none] 5 = .error itemTypeError := by decide

/-- C5 amended: over item lists whose items and content objects are all
present, the lookup returns the id of the first item whose content number
equals the target, skips items whose present content carries no number
(non-issue items) without error, and yields absent when none matches; a
null item or null content, however, throws instead of being skipped. -/
theorem findProjectIssueId_first_match (issues : List (Option Item)) (n : Nat)
    (hwf : ∀ x ∈ issues, ∃ it c, x = some it ∧ it.content = some c) :
    findProjectIssueId issues n = .ok (firstMatchingItemId issues n) := by
  induction issues with
  | nil => rfl
  | cons x rest ih =>
    obtain ⟨it, c, rfl, hc⟩ := hwf x (by simp)
    by_cases hnum : c.number = some n <;>
      simp [findProjectIssueId, firstMatchingItemId, hc, hnum,
        ih fun y hy => hwf y (List.mem_cons_of_mem _ hy)]

/-- C5 witness: in a list mixing a contentless non-issue item and two
matching issue items, the lookup skips the non-issue item and returns the
first matching item's id. -/
theorem findProjectIssueId_first_match_witness :
    findProjectIssueId mixedItems 5 = .ok (firstMatchingItemId mixedItems 5) ∧
    firstMatchingItemId mixedItems 5 = some "b" :=
  ⟨findProjectIssueId_first_match mixedItems 5
      (by intro x hx; fin_cases hx <;> exact ⟨_, _, rfl, rfl⟩),
   by decide⟩

/-- The issues the token loop returns are exactly the store's successful
responses at the tokens' numbers, in token order. -/
theorem processTokens_issues (auth : String)
    (store : Nat → Except String IssueRec) :
    ∀ toks, (processTokens auth store toks).2.2 =
      (tokenNumbers toks).filterMap (fun n => (store n).toOption) := by
  intro toks
  induction toks with
  | nil => rfl
  | cons t r ih =>
    by_cases hp : (t.filter Char.isDigit).isEmpty
    · simp [processTokens, tokenNumbers, hp, ih]
    · cases hst : store (parseNatChars (t.filter Char.isDigit)) <;>
        simp [processTokens, tokenNumbers, hp, ih, fetchIssue, hst,
          Except.toOption]

/-- A store failure at a token's number leaves its message in the token
loop's log. -/
theorem processTokens_log (auth : String)
    (store : Nat → Except String IssueRec) :
    ∀ toks n msg, n ∈ tokenNumbers toks → store n = .error msg →
      LogLine.errorMessage msg ∈ (processTokens auth store toks).1 := by
  intro toks
  induction toks with
  | nil => intro n msg h; simp [tokenNumbers] at h
  | cons t r ih =>
    intro n msg hmem hst
    by_cases hp : (t.filter Char.isDigit).isEmpty
    · rw [tokenNumbers, if_pos hp] at hmem
      simp only [processTokens, hp, if_pos]
      exact List.mem_cons_of_mem _ (ih n msg hmem hst)
    · rw [tokenNumbers, if_neg hp] at hmem
      rcases List.mem_cons.mp hmem with heq | hmem2
      · subst heq
        simp [processTokens, hp, fetchIssue, hst]
      · simp only [processTokens, hp, if_neg, ite_false]
        refine List.mem_cons_of_mem _ (List.mem_append.mpr (Or.inr ?_))
        exact ih n msg hmem2 hst

/-- C6: a fetch failure for one referenced token does not abort the batch:
the returned issues are exactly the successfully fetched ones in order of
appearance, and each failing token's error message is logged. -/
theorem fetchLinkedIssues_skips_failures (auth : String)
    (store : Nat → Except String IssueRec) (body : Option String) :
    (fetchLinkedIssues auth store body).2.2 =
      (linkedNumbers body).filterMap (fun n => (store n).toOption) ∧
    (∀ n msg, n ∈ linkedNumbers body → store n = .error msg →
      LogLine.errorMessage msg ∈ (fetchLinkedIssues auth store body).1) := by
  constructor
  · cases body with
    | none => rfl
    | some text =>
      by_cases h : (extractTokens text.data).isEmpty
      · have he : extractTokens text.data = [] := by
          cases hE : extractTokens text.data with
          | nil => rfl
          | cons a l => rw [hE] at h; simp at h
        simp [fetchLinkedIssues, linkedNumbers, he, tokenNumbers]
      · simp [fetchLinkedIssues, linkedNumbers, h, processTokens_issues]
  · intro n msg hmem hst
    cases body with
    | none => simp [linkedNumbers, tokenNumbers] at hmem
    | some text =>
      rw [linkedNumbers] at hmem
      have h : (extractTokens text.data).isEmpty = false := by
        cases hE : extractTokens text.data with
        | nil => rw [hE] at hmem; simp [tokenNumbers] at hmem
        | cons a l => simp
      simp only [fetchLinkedIssues, h, Bool.false_eq_true, if_neg,
        ite_false]
      exact List.mem_cons_of_mem _
        (List.mem_cons_of_mem _ (processTokens_log auth store _ n msg hmem hst))

/-- C6 witness: for tokens for issues 1, 999 and 2 where the fetch of 999
throws, the extractor returns the issues for 1 and 2 in order and logs
the thrown message. -/
theorem fetchLinkedIssues_skips_failures_witness :
    (fetchLinkedIssues "t" store6 (some "#1,#999,#2")).2.2 =
      [{ number := 1, assignees := [] }, { number := 2, assignees := [] }] ∧
    LogLine.errorMessage "boom" ∈ (fetchLinkedIssues "t" store6 (some "#1,#999,#2")).1 := by
  have h := fetchLinkedIssues_skips_failures "t" store6 (some "#1,#999,#2")
  exact ⟨by rw [h.1]; decide, h.2 999 "boom" (by decide) (by decide)⟩
-- appended below main file for testing

/-- Every token the scanner emits is a hash sign followed by a nonempty
run of digits, provided the scanner state holds only digits. -/
theorem scanAux_shape :
    ∀ (l : List Char) (st : Option (List Char)),
      (∀ ds, st = some ds → ∀ c ∈ ds, c.isDigit = true) →
      ∀ tok ∈ scanAux l st,
        ∃ ds, tok = '#' :: ds ∧ ds ≠ [] ∧ ∀ c ∈ ds, c.isDigit = true := by
  intro l
  induction l with
  | nil =>
    intro st hst tok htok
    cases st with
    | none => simp [scanAux] at htok
    | some ds =>
      by_cases hd : ds.isEmpty
      · simp [scanAux, hd] at htok
      · rw [scanAux, if_neg hd] at htok
        rcases List.mem_singleton.mp htok with rfl
        refine ⟨ds.reverse, rfl, ?_, ?_⟩
        · intro hrev
          rw [List.reverse_eq_nil_iff] at hrev
          rw [hrev] at hd
          simp at hd
        · intro c hc
          exact hst ds rfl c (List.mem_reverse.mp hc)
  | cons a rest ih =>
    intro st hst tok htok
    cases st with
    | none =>
      rw [scanAux] at htok
      by_cases ha : a = '#'
      · rw [if_pos ha] at htok
        exact ih (some []) (by intro ds h c hc; injection h with h; subst h; simp at hc) tok htok
      · rw [if_neg ha] at htok
        exact ih none (by intro ds h; cases h) tok htok
    | some ds =>
      rw [scanAux] at htok
      by_cases hd : a.isDigit
      · rw [if_pos hd] at htok
        refine ih (some (a :: ds)) ?_ tok htok
        intro ds2 h c hc
        injection h with h
        subst h
        rcases List.mem_cons.mp hc with rfl | hc2
        · exact hd
        · exact hst ds rfl c hc2
      · rw [if_neg hd] at htok
        rcases List.mem_append.mp htok with hL | hR
        · by_cases he : ds.isEmpty
          · rw [if_pos he] at hL; simp at hL
          · rw [if_neg he] at hL
            rcases List.mem_singleton.mp hL with rfl
            refine ⟨ds.reverse, rfl, ?_, ?_⟩
            · intro hrev
              rw [List.reverse_eq_nil_iff] at hrev
              rw [hrev] at he
              simp at he
            · intro c hc
              exact hst ds rfl c (List.mem_reverse.mp hc)
        · by_cases ha : a = '#'
          · rw [if_pos ha] at hR
            exact ih (some []) (by intro ds2 h c hc; injection h with h; subst h; simp at hc) tok hR
          · rw [if_neg ha] at hR
            exact ih none (by intro ds2 h; cases h) tok hR

/-- C7: every extracted token is a hash sign followed by one or more
digits (so a hash followed by letters yields nothing), and the in-order,
non-deduplicating pipeline turns a body mentioning a number twice into
that issue twice — digits are stripped from each token before lookup. -/
theorem fetchLinkedIssues_token_pipeline :
    (∀ (l : List Char) (tok : List Char), tok ∈ extractTokens l →
      ∃ ds, tok = '#' :: ds ∧ ds ≠ [] ∧ ∀ c ∈ ds, c.isDigit = true) ∧
    (∀ (auth : String) (store : Nat → Except String IssueRec) (i7 : IssueRec),
      store 7 = .ok i7 →
      (fetchLinkedIssues auth store (some "Closes #7; see #abc7 and #7x")).2.2 =
        [i7, i7]) := by
  constructor
  · intro l tok h
    exact scanAux_shape l none (by intro ds h; cases h) tok h
  · intro auth store i7 h7
    have he : extractTokens ("Closes #7; see #abc7 and #7x").data =
        [['#', '7'], ['#', '7']] := by decide
    have ht : tokenNumbers [['#', '7'], ['#', '7']] = [7, 7] := by decide
    have hne : ([['#', '7'], ['#', '7']] : List (List Char)).isEmpty = false := rfl
    rw [fetchLinkedIssues]
    simp only [he, hne, Bool.false_eq_true, ite_false]
    rw [processTokens_issues, ht]
    simp [h7, Except.toOption]

/-- C7 witness: with a store resolving every number, the body mentioning
hash-seven twice and hash-abc-seven once yields issue seven exactly
twice. -/
theorem fetchLinkedIssues_token_pipeline_witness :
    (fetchLinkedIssues "t" store7 (some "Closes #7; see #abc7 and #7x")).2.2 =
      [{ number := 7, assignees := [] }, { number := 7, assignees := [] }] :=
  fetchLinkedIssues_token_pipeline.2 "t" store7 { number := 7, assignees := [] } rfl

/-- C10 counterexample: with both required inputs missing the run does not
fail fast — it completes successfully after attempting a nonempty
sequence of remote calls, the issue fetch first, all carrying the empty
credential and project number zero. -/
theorem run_missing_config_cex :
    run ⟨none, none, none⟩ (.pullRequestReviewRequested (some "#1") ["alice"])
        store7 none emptyPageStore 1 =
      some (.ok [.issuesGet "" 1, .removeAssignees "" 1 [],
                 .addAssignees "" 1 ["alice"], .projectInfoQuery "" (some 0),
                 .itemsPageQuery "" (some 0) ""]) ∧
    ([RemoteCall.issuesGet "" 1, .removeAssignees "" 1 [],
      .addAssignees "" 1 ["alice"], .projectInfoQuery "" (some 0),
      .itemsPageQuery "" (some 0) ""] : List RemoteCall) ≠ [] := by decide

/-- C10 amended: missing token and projectNumber inputs are not validated
at all: they read as the empty string (the project number coercing to
zero), and the run proceeds to attempt its remote calls — the issue fetch
first — with the empty credential, failing only if a remote call itself
fails. -/
theorem run_missing_config_amended (store : Nat → Except String IssueRec)
    (i : IssueRec) (h : store 1 = .ok i) :
    run ⟨none, none, none⟩ (.pullRequestReviewRequested (some "#1") ["alice"])
        store none emptyPageStore 1 =
      some (.ok [.issuesGet "" 1, .removeAssignees "" i.number i.assignees,
                 .addAssignees "" i.number ["alice"],
                 .projectInfoQuery "" (some 0),
                 .itemsPageQuery "" (some 0) ""]) := by
  have he : extractTokens ("#1").data = [['#', '1']] := by decide
  simp [run, extractEventInformation, fetchLinkedIssues, he, processTokens,
    fetchIssue, h, runIssuesLoop, updateIssueStatus, resolveStatusOptionId,
    findStatusField, fetchIssuesInProject, fetchLoop, findProjectIssueId,
    jsTruthy, emptyPageStore, updateAssigneesCalls, getInputD, jsSplitComma,
    splitCommaAux, numberFromInput, parseNatChars, Status.label]

/-- C10 witness: the amended behaviour at a concrete store. -/
theorem run_missing_config_amended_witness :
    run ⟨none, none, none⟩ (.pullRequestReviewRequested (some "#1") ["alice"])
        store6 none emptyPageStore 1 =
      some (.ok [.issuesGet "" 1, .removeAssignees "" 1 [],
                 .addAssignees "" 1 ["alice"], .projectInfoQuery "" (some 0),
                 .itemsPageQuery "" (some 0) ""]) :=
  run_missing_config_amended store6 { number := 1, assignees := [] } rfl
